import Mathlib

/-!
# The class model of the isl interface generator (`interface/generator.h`)

A shallow embedding of `struct isl_class` and of the inline member functions
defined in the header, followed by the properties established about them.

Conventions of the embedding.

* A `std::string` is the list of its characters; `length()` is `List.length`.
  Lengths and positions are natural numbers: a string is shorter than
  `max_size()`, so `length() + 1` and `strlen` do not wrap around in `size_t`.
* A C++ exception leaving a function is the result `none`; the only exception
  the inline code can raise is the `std::out_of_range` of `substr`.
* A pointer to a clang declaration is the declaration's identity; a pointer
  that may be null is an `Option`.
* A `std::set` of pointers is a `Finset`; a `std::map` is the list of its
  key/value entries.
* Functions that the header only declares (`name_without_type_suffix`) and the
  static constant it only declares (`set_callback_prefix`) are parameters of
  the definitions that use them.
-/

namespace Isl

/-- A `std::string`, as the sequence of its characters. -/
abbrev CxxString := List Char

/-- A C string (`const char *`), as the characters before its terminator. -/
abbrev CString := List Char

/-- The identity of a clang `FunctionDecl`, as pointed to by `FunctionDecl *`. -/
structure FunctionDecl where
  addr : Nat
  deriving DecidableEq, Repr

/-- The identity of a clang `RecordDecl`, as pointed to by `RecordDecl *`. -/
structure RecordDecl where
  addr : Nat
  deriving DecidableEq, Repr

/-- The call `s.substr(pos)` of `std::string`: the characters of `s` from
position `pos` to the end.  The standard library raises `std::out_of_range`
exactly when `pos > s.size()`; `pos = s.size()` yields the empty string. -/
def substr (s : CxxString) (pos : Nat) : Option CxxString :=
  if pos > s.length then none else some (s.drop pos)

/-- The C library function `strlen`, on a C string given by its contents. -/
def strlen (s : CString) : Nat :=
  s.length

/-- The record `struct isl_class` (generator.h, lines 30-67). -/
structure isl_class where
  name : CxxString
  superclass_name : CxxString
  subclass_name : CxxString
  type : Option RecordDecl
  constructors : Finset FunctionDecl
  persistent_callbacks : Finset FunctionDecl
  methods : List (CxxString × Finset FunctionDecl)
  type_subclasses : List (Int × CxxString)
  fn_type : Option FunctionDecl
  fn_to_str : Option FunctionDecl
  fn_copy : Option FunctionDecl
  fn_dump : Option FunctionDecl
  fn_free : Option FunctionDecl

namespace isl_class

/-- Is this class a subclass based on a type function?
`bool is_type_subclass() const { return name != subclass_name; }` -/
def is_type_subclass (c : isl_class) : Bool :=
  c.name != c.subclass_name

/-- Extract the method name corresponding to `fd`:
`string m_name = name_without_type_suffix(fd);`
`return m_name.substr(subclass_name.length() + 1);` -/
def method_name (name_without_type_suffix : FunctionDecl → CxxString)
    (c : isl_class) (fd : FunctionDecl) : Option CxxString :=
  let m_name := name_without_type_suffix fd
  substr m_name (c.subclass_name.length + 1)

/-- Given a function that sets a persistent callback, return the name of the
callback: `return method_name(fd).substr(strlen( set_callback_prefix));`.
An exception raised by `method_name` propagates. -/
def persistent_callback_name (name_without_type_suffix : FunctionDecl → CxxString)
    ( set_callback_prefix : CString) (c : isl_class) (fd : FunctionDecl) :
    Option CxxString :=
  (method_name name_without_type_suffix c fd).bind
    (fun m => substr m (strlen set_callback_prefix))

/-- Does this class have any functions that set a persistent callback?
`return persistent_callbacks.size() != 0;` -/
def has_persistent_callbacks (c : isl_class) : Bool :=
  c.persistent_callbacks.card != 0

end isl_class

/-- A class record with the given three names and every container empty and
every pointer null: the shape of the concrete classes of the examples. -/
def plain_class (name superclass_name subclass_name : CxxString) : isl_class :=
  { name := name, superclass_name := superclass_name, subclass_name := subclass_name,
    type := none, constructors := ∅, persistent_callbacks := ∅, methods := [],
    type_subclasses := [], fn_type := none, fn_to_str := none, fn_copy := none,
    fn_dump := none, fn_free := none }

/-! ## The class registry of `class generator`

The header declares the registry (`map<string,isl_class> classes`) and the
builder operations on it, but none of their bodies. -/

/-- The member `find` of a `std::map` given by its entries: the value stored
under key `k`, if there is one. -/
def map_find {κ υ : Type} [DecidableEq κ] : List (κ × υ) → κ → Option υ
  | [], _ => none
  | (k', v) :: m, k => if k' = k then some v else map_find m k

/-- The assignment `m[k] = v` on a `std::map` given by its entries: the entry
under `k` is replaced, or created when there is none. -/
def map_assign {κ υ : Type} [DecidableEq κ] : List (κ × υ) → κ → υ → List (κ × υ)
  | [], k, v => [(k, v)]
  | (k', v') :: m, k, v =>
    if k' = k then (k, v) :: m else (k', v') :: map_assign m k v

/-- The data members of `class generator` that hold the model: `classes` and
`functions_by_name` (the `SourceManager` reference only serves diagnostics). -/
structure generator where
  classes : List (CxxString × isl_class)
  functions_by_name : List (CxxString × FunctionDecl)

/-- The failures of the model build, each of which ends the run through `die`. -/
inductive build_error where
  | classification_error (fd : FunctionDecl)
  | duplicate_subclass (sub_name : CxxString)
  | unmapped_values (values : List Int)
  deriving DecidableEq, Repr

namespace generator

/-- Modelled from the spec: the body of `generator::add_class`, which the
header only declares.  "Registers a new class from a type declaration;
initializes `subclass_name = name`, all optional slots empty."  The name that
clang reports for the declaration is the parameter `decl_name`; the containers
of the new record are those of a freshly constructed `isl_class`. -/
def add_class (decl_name : RecordDecl → CxxString) (g : generator)
    (decl : RecordDecl) : generator :=
  let name := decl_name decl
  let c : isl_class :=
    { name := name, superclass_name := [], subclass_name := name,
      type := some decl, constructors := ∅, persistent_callbacks := ∅,
      methods := [], type_subclasses := [], fn_type := none, fn_to_str := none,
      fn_copy := none, fn_dump := none, fn_free := none }
  { g with classes := map_assign g.classes name c }

/-- Modelled from the spec: the body of `generator::add_subclass`, which the
header only declares.  "Registers a type-tag subclass; records
`superclass_name = name`, `subclass_name = sub_name`; fails with a model error
if `sub_name` is already registered."  The record is stored under `sub_name`
and carries the name of the declaration it was made from. -/
def add_subclass (decl_name : RecordDecl → CxxString) (g : generator)
    (decl : RecordDecl) (name sub_name : CxxString) : Except build_error generator :=
  if (map_find g.classes sub_name).isSome then
    .error (.duplicate_subclass sub_name)
  else
    let c : isl_class :=
      { name := decl_name decl, superclass_name := name, subclass_name := sub_name,
        type := some decl, constructors := ∅, persistent_callbacks := ∅,
        methods := [], type_subclasses := [], fn_type := none, fn_to_str := none,
        fn_copy := none, fn_dump := none, fn_free := none }
    .ok { g with classes := map_assign g.classes sub_name c }

/-- Modelled from the spec: the lookup that `add_type_subclasses` performs for
one enumerator value, "a previously-added subclass whose tag attribute equals
that value".  A subclass is a registered class with `is_type_subclass()`; the
tag attribute of a class, which no member of `isl_class` records, is given by
the parameter `tag_of`. -/
def tagged_subclass (tag_of : isl_class → Option Int) (g : generator)
    (v : Int) : Option isl_class :=
  (g.classes.find? (fun e =>
    e.2.is_type_subclass && decide (tag_of e.2 = some v))).map Prod.snd

/-- Modelled from the spec: the enumerator values of the discriminator that no
previously-added subclass is tagged with, in the order of the enumeration. -/
def unmapped_values (tag_of : isl_class → Option Int) (g : generator)
    (values : List Int) : List Int :=
  values.filter (fun v => (tagged_subclass tag_of g v).isNone)

/-- Modelled from the spec: the entries that `add_type_subclasses` adds to the
map of the owning class, one for each enumerator value that has a tagged
subclass. -/
def populate (tag_of : isl_class → Option Int) (g : generator) :
    List (Int × CxxString) → List Int → List (Int × CxxString)
  | m, [] => m
  | m, v :: vs =>
    match tagged_subclass tag_of g v with
    | some s => populate tag_of g (map_assign m v s.subclass_name) vs
    | none => populate tag_of g m vs

/-- Modelled from the spec: the body of `generator::add_type_subclasses`, which
the header only declares.  "For the class owning `discriminator_fn`, walks
every enumerator value the function's return type can take and, for each,
requires a previously-added subclass whose tag attribute equals that value;
populates `type_tag_values`.  Fails with a model error listing every unmapped
enumerator."  The owning class is found by `method2class` (declared in the
header, a parameter here, yielding the key of the class in `classes`), the
enumerator values of the return type are given by `enum_values`. -/
def add_type_subclasses (method2class : generator → FunctionDecl → Option CxxString)
    (enum_values : FunctionDecl → List Int) (tag_of : isl_class → Option Int)
    (g : generator) (discriminator_fn : FunctionDecl) : Except build_error generator :=
  match method2class g discriminator_fn with
  | none => .error (.classification_error discriminator_fn)
  | some key =>
    match map_find g.classes key with
    | none => .error (.classification_error discriminator_fn)
    | some c =>
      let unmapped := unmapped_values tag_of g (enum_values discriminator_fn)
      if unmapped ≠ [] then
        .error (.unmapped_values unmapped)
      else
        let c' : isl_class :=
          { c with type_subclasses :=
              populate tag_of g c.type_subclasses (enum_values discriminator_fn) }
        .ok { g with classes := map_assign g.classes key c' }

end generator

/-! ### The registry of scenario C

A class "Foo" and its subclasses "Bar" and "Baz", which share the declaration
of "Foo"; "Bar" carries the tag 0 and "Baz" the tag 1. -/

/-- The declaration names of scenario C: every declaration is that of "Foo". -/
def scenario_decl_name (_ : RecordDecl) : CxxString :=
  "Foo".toList

/-- The tag attributes of scenario C. -/
def scenario_tag_of (c : isl_class) : Option Int :=
  if c.subclass_name = "Bar".toList then some 0
  else if c.subclass_name = "Baz".toList then some 1
  else none

/-- The owner of every function of scenario C is "Foo". -/
def scenario_method2class (_ : generator) (_ : FunctionDecl) : Option CxxString :=
  some "Foo".toList

/-- The discriminator of scenario C returns the values 0 and 1. -/
def scenario_enum_values (_ : FunctionDecl) : List Int :=
  [0, 1]

/-- The registry after `add_class` for "Foo". -/
def scenario_foo : generator :=
  generator.add_class scenario_decl_name ⟨[], []⟩ ⟨0⟩

/-- The registry after `add_class` for "Foo" and `add_subclass` for "Bar". -/
def scenario_foo_bar : Except build_error generator :=
  generator.add_subclass scenario_decl_name scenario_foo ⟨0⟩ "Foo".toList "Bar".toList

/-- The registry after `add_class` for "Foo" and `add_subclass` for "Bar" and
then for "Baz". -/
def scenario_foo_bar_baz : Except build_error generator :=
  scenario_foo_bar.bind (fun g =>
    generator.add_subclass scenario_decl_name g ⟨0⟩ "Foo".toList "Baz".toList)

/-- The registry that a build step produced; the empty registry when the step
failed. -/
def registry_of (r : Except build_error generator) : generator :=
  match r with
  | .ok g => g
  | .error _ => ⟨[], []⟩

/-- The `type_subclasses` map of the class stored under `key` in the outcome
of a build step, or the error of that step. -/
def type_subclasses_of (r : Except build_error generator) (key : CxxString) :
    Except build_error (Option (List (Int × CxxString))) :=
  r.map (fun g => (map_find g.classes key).map isl_class.type_subclasses)

/-! ## `std::string::substr` -/

theorem substr_eq_some_iff (s r : CxxString) (pos : Nat) :
    substr s pos = some r ↔ pos ≤ s.length ∧ r = s.drop pos := by
  unfold substr
  by_cases h : pos > s.length
  · simp only [h, if_true]
    constructor
    · intro h0
      cases h0
    · rintro ⟨h1, -⟩
      omega
  · simp only [h, if_false, Option.some.injEq]
    constructor
    · intro h0
      exact ⟨by omega, h0.symm⟩
    · rintro ⟨-, h2⟩
      exact h2.symm

theorem substr_eq_none_iff (s : CxxString) (pos : Nat) :
    substr s pos = none ↔ s.length < pos := by
  unfold substr
  by_cases h : pos > s.length
  · simp only [h, if_true, true_iff]
  · simp only [h, if_false]
    constructor
    · intro h0
      cases h0
    · intro h1
      exact h1.elim

theorem substr_of_le (s : CxxString) (pos : Nat) (h : pos ≤ s.length) :
    substr s pos = some (s.drop pos) :=
  (substr_eq_some_iff s (s.drop pos) pos).mpr ⟨h, rfl⟩

theorem substr_prefix_append (pre rest : CxxString) :
    substr (pre ++ rest) pre.length = some rest := by
  rw [substr_of_le _ _ (by simp)]
  simp

/-! ## `isl_class::is_type_subclass` -/

theorem is_type_subclass_iff_aux (c : isl_class) :
    c.is_type_subclass = false ↔ c.subclass_name = c.name := by
  unfold isl_class.is_type_subclass
  rw [bne_eq_false_iff_eq]
  exact eq_comm

/-- C1: `is_type_subclass()` returns true exactly when `subclass_name` differs
from `name`, and false exactly when the two are equal; `superclass_name` plays
no part. -/
theorem is_type_subclass_iff (c : isl_class) :
    (c.is_type_subclass = true ↔ c.subclass_name ≠ c.name) ∧
    (c.is_type_subclass = false ↔ c.subclass_name = c.name) := by
  unfold isl_class.is_type_subclass
  constructor
  · rw [bne_iff_ne]
    exact ne_comm
  · rw [bne_eq_false_iff_eq]
    exact eq_comm

/-! ## `isl_class::method_name` -/

theorem method_name_eq (nwts : FunctionDecl → CxxString) (c : isl_class)
    (fd : FunctionDecl) :
    c.method_name nwts fd = substr (nwts fd) (c.subclass_name.length + 1) :=
  rfl

theorem substr_prefix_sep (pre : CxxString) (sep : Char) (m : CxxString) :
    substr (pre ++ sep :: m) (pre.length + 1) = some m := by
  have h := substr_prefix_append (pre ++ [sep]) m
  simpa using h

/-- C2: when the name of `fd` without type suffix is a prefix as long as
`subclass_name`, then one separator character, then `m`, `method_name(fd)`
returns `m`. -/
theorem method_name_prefix_stripped (nwts : FunctionDecl → CxxString) (c : isl_class)
    (fd : FunctionDecl) (pre : CxxString) (sep : Char) (m : CxxString)
    (hlen : pre.length = c.subclass_name.length)
    (hname : nwts fd = pre ++ sep :: m) :
    c.method_name nwts fd = some m := by
  rw [method_name_eq, hname, ← hlen]
  exact substr_prefix_sep pre sep m

/-- The example of C2: for the class with `subclass_name` "Foo" and a
declaration named "foo_get_ctx", `method_name` is "get_ctx". -/
theorem method_name_prefix_stripped_witness :
    (plain_class "Foo".toList [] "Foo".toList).method_name
      (fun _ => "foo_get_ctx".toList) ⟨0⟩ = some "get_ctx".toList :=
  method_name_prefix_stripped (fun _ => "foo_get_ctx".toList)
    (plain_class "Foo".toList [] "Foo".toList) ⟨0⟩ "foo".toList '_' "get_ctx".toList
    (by decide) (by decide)

/-- C3, as stated, fails: for the type-tag subclass with `name`
"isl_schedule_node" and `subclass_name` "isl_schedule_node_band", the
declaration "isl_schedule_node_band_get_space" is `name`, a separator and
"band_get_space", yet `method_name` returns "get_space". -/
theorem method_name_name_prefix_counterexample :
    (fun _ => "isl_schedule_node_band_get_space".toList) (⟨0⟩ : FunctionDecl) =
      (plain_class "isl_schedule_node".toList "isl_schedule_node".toList
        "isl_schedule_node_band".toList).name ++ '_' :: "band_get_space".toList ∧
    (plain_class "isl_schedule_node".toList "isl_schedule_node".toList
        "isl_schedule_node_band".toList).method_name
      (fun _ => "isl_schedule_node_band_get_space".toList) ⟨0⟩ =
      some "get_space".toList ∧
    (plain_class "isl_schedule_node".toList "isl_schedule_node".toList
        "isl_schedule_node_band".toList).method_name
      (fun _ => "isl_schedule_node_band_get_space".toList) ⟨0⟩ ≠
      some "band_get_space".toList := by
  decide

/-- C3, amended: when the name of `fd` without type suffix is `name`, one
separator character and a remainder `m`, `method_name(fd)` returns `m` exactly
when `name` and `subclass_name` have the same length, which is the case for
every class that is not a type-tag subclass. -/
theorem method_name_name_prefix_iff (nwts : FunctionDecl → CxxString) (c : isl_class)
    (fd : FunctionDecl) (sep : Char) (m : CxxString)
    (hname : nwts fd = c.name ++ sep :: m) :
    (c.method_name nwts fd = some m ↔ c.name.length = c.subclass_name.length) ∧
    (c.is_type_subclass = false → c.method_name nwts fd = some m) := by
  have key : c.method_name nwts fd = some m ↔
      c.name.length = c.subclass_name.length := by
    constructor
    · intro h
      rw [method_name_eq, substr_eq_some_iff, hname] at h
      obtain ⟨h1, h2⟩ := h
      have h3 := congrArg List.length h2
      simp only [List.length_drop, List.length_append, List.length_cons] at h1 h3
      omega
    · intro h
      rw [method_name_eq, hname, ← h]
      exact substr_prefix_sep c.name sep m
  refine ⟨key, fun hsub => key.mpr ?_⟩
  have heq : c.subclass_name = c.name := (is_type_subclass_iff_aux c).mp hsub
  rw [heq]

/-- An instance of the amended C3: the class "isl_set", which is not a type-tag
subclass, and the declaration "isl_set_get_space". -/
theorem method_name_name_prefix_iff_witness :
    (fun _ => "isl_set_get_space".toList) (⟨0⟩ : FunctionDecl) =
      (plain_class "isl_set".toList [] "isl_set".toList).name ++
        '_' :: "get_space".toList ∧
    (plain_class "isl_set".toList [] "isl_set".toList).is_type_subclass = false ∧
    (plain_class "isl_set".toList [] "isl_set".toList).method_name
      (fun _ => "isl_set_get_space".toList) ⟨0⟩ = some "get_space".toList :=
  ⟨by decide, by decide,
    (method_name_name_prefix_iff (fun _ => "isl_set_get_space".toList)
      (plain_class "isl_set".toList [] "isl_set".toList) ⟨0⟩ '_' "get_space".toList
      (by decide)).2 (by decide)⟩

/-- C4, as stated, fails: for the class "Foo" and the declaration "foo_", whose
name has length `subclass_name.length() + 1`, `method_name` raises nothing and
returns the empty string. -/
theorem method_name_empty_counterexample :
    ((fun _ => "foo_".toList) (⟨0⟩ : FunctionDecl)).length =
      (plain_class "Foo".toList [] "Foo".toList).subclass_name.length + 1 ∧
    (plain_class "Foo".toList [] "Foo".toList).method_name
      (fun _ => "foo_".toList) ⟨0⟩ = some [] ∧
    (plain_class "Foo".toList [] "Foo".toList).method_name
      (fun _ => "foo_".toList) ⟨0⟩ ≠ none := by
  decide

/-- C4, amended: when the name of `fd` without type suffix has length exactly
`subclass_name.length() + 1`, `method_name(fd)` returns the empty string and
raises no error. -/
theorem method_name_empty (nwts : FunctionDecl → CxxString) (c : isl_class)
    (fd : FunctionDecl) (hlen : (nwts fd).length = c.subclass_name.length + 1) :
    c.method_name nwts fd = some [] := by
  rw [method_name_eq, substr_of_le _ _ (le_of_eq hlen.symm), ← hlen]
  simp

/-- An instance of the amended C4: the class "Foo" and the declaration "foo_". -/
theorem method_name_empty_witness :
    (plain_class "Foo".toList [] "Foo".toList).method_name
      (fun _ => "foo_".toList) ⟨0⟩ = some [] :=
  method_name_empty (fun _ => "foo_".toList)
    (plain_class "Foo".toList [] "Foo".toList) ⟨0⟩ (by decide)

/-- C9: `method_name(fd)` yields a result exactly when the name of `fd`
without type suffix has at least `subclass_name.length() + 1` characters; the
result is then a suffix of that name, shorter by `subclass_name.length() + 1`;
and any class whose `subclass_name` has the same length gives the same
outcome, whatever its `name` and the characters of its `subclass_name`. -/
theorem method_name_defined_iff (nwts : FunctionDecl → CxxString) (c : isl_class)
    (fd : FunctionDecl) :
    ((c.method_name nwts fd).isSome = true ↔
      c.subclass_name.length + 1 ≤ (nwts fd).length) ∧
    (∀ r, c.method_name nwts fd = some r →
      r <:+ nwts fd ∧ r.length = (nwts fd).length - c.subclass_name.length - 1) ∧
    (∀ c' : isl_class, c'.subclass_name.length = c.subclass_name.length →
      c'.method_name nwts fd = c.method_name nwts fd) := by
  refine ⟨?_, ?_, ?_⟩
  · rw [method_name_eq, Option.isSome_iff_exists]
    constructor
    · rintro ⟨r, hr⟩
      exact ((substr_eq_some_iff _ _ _).mp hr).1
    · intro h
      exact ⟨_, substr_of_le _ _ h⟩
  · intro r hr
    rw [method_name_eq, substr_eq_some_iff] at hr
    obtain ⟨-, h2⟩ := hr
    subst h2
    refine ⟨List.drop_suffix _ _, ?_⟩
    rw [List.length_drop]
    omega
  · intro c' hc'
    rw [method_name_eq, method_name_eq, hc']

/-- An instance of C9: the classes "Foo" and "Bar" of unrelated names give
the same method name "get_ctx" for the declaration "foo_get_ctx". -/
theorem method_name_defined_iff_witness :
    (plain_class "Bar".toList "Qux".toList "Bar".toList).method_name
        (fun _ => "foo_get_ctx".toList) ⟨0⟩ =
      (plain_class "Foo".toList [] "Foo".toList).method_name
        (fun _ => "foo_get_ctx".toList) ⟨0⟩ ∧
    "get_ctx".toList <:+ "foo_get_ctx".toList ∧
    "get_ctx".toList.length = "foo_get_ctx".toList.length - "Foo".toList.length - 1 :=
  ⟨(method_name_defined_iff (fun _ => "foo_get_ctx".toList)
      (plain_class "Foo".toList [] "Foo".toList) ⟨0⟩).2.2
      (plain_class "Bar".toList "Qux".toList "Bar".toList) (by decide),
   (method_name_defined_iff (fun _ => "foo_get_ctx".toList)
      (plain_class "Foo".toList [] "Foo".toList) ⟨0⟩).2.1 "get_ctx".toList (by decide)⟩

/-! ## `isl_class::persistent_callback_name` -/

theorem persistent_callback_name_eq (nwts : FunctionDecl → CxxString)
    ( set_callback_prefix : CString) (c : isl_class) (fd : FunctionDecl) :
    c.persistent_callback_name nwts set_callback_prefix fd =
      (c.method_name nwts fd).bind (fun m => substr m (strlen set_callback_prefix)) :=
  rfl

/-- C5: when `method_name(fd)` begins with `set_callback_prefix`,
`persistent_callback_name(fd)` returns the rest of it: the prefix followed by
the callback name is the method name. -/
theorem persistent_callback_name_prefix_stripped (nwts : FunctionDecl → CxxString)
    ( set_callback_prefix : CString) (c : isl_class) (fd : FunctionDecl)
    (mname : CxxString) (hm : c.method_name nwts fd = some mname)
    (hpre : set_callback_prefix <+: mname) :
    ∃ cb, c.persistent_callback_name nwts set_callback_prefix fd = some cb ∧
      set_callback_prefix ++ cb = mname := by
  obtain ⟨cb, hcb⟩ := hpre
  refine ⟨cb, ?_, hcb⟩
  rw [persistent_callback_name_eq, hm, Option.some_bind, ← hcb]
  exact substr_prefix_append set_callback_prefix cb

/-- The example of C5: with the prefix "set_", the class "Foo" and the
declaration "foo_set_on_error", `method_name` is "set_on_error" and
`persistent_callback_name` is "on_error". -/
theorem persistent_callback_name_prefix_stripped_witness :
    (plain_class "Foo".toList [] "Foo".toList).method_name
      (fun _ => "foo_set_on_error".toList) ⟨0⟩ = some "set_on_error".toList ∧
    (plain_class "Foo".toList [] "Foo".toList).persistent_callback_name
      (fun _ => "foo_set_on_error".toList) "set_".toList ⟨0⟩ =
      some "on_error".toList ∧
    ∃ cb, (plain_class "Foo".toList [] "Foo".toList).persistent_callback_name
        (fun _ => "foo_set_on_error".toList) "set_".toList ⟨0⟩ = some cb ∧
      "set_".toList ++ cb = "set_on_error".toList :=
  ⟨by decide, by decide,
    persistent_callback_name_prefix_stripped (fun _ => "foo_set_on_error".toList)
      "set_".toList (plain_class "Foo".toList [] "Foo".toList) ⟨0⟩
      "set_on_error".toList (by decide) (by decide)⟩

/-- C10: `persistent_callback_name(fd)` yields a result exactly when the name
of `fd` without type suffix has at least `subclass_name.length() + 1 + p`
characters, `p` being the length of `set_callback_prefix`, and the result is
then that name without its first `subclass_name.length() + 1 + p` characters.
Nothing is assumed of the characters removed or of `persistent_callbacks`. -/
theorem persistent_callback_name_defined_iff (nwts : FunctionDecl → CxxString)
    ( set_callback_prefix : CString) (c : isl_class) (fd : FunctionDecl) :
    ((c.persistent_callback_name nwts set_callback_prefix fd).isSome = true ↔
      c.subclass_name.length + 1 + strlen set_callback_prefix ≤ (nwts fd).length) ∧
    (c.subclass_name.length + 1 + strlen set_callback_prefix ≤ (nwts fd).length →
      c.persistent_callback_name nwts set_callback_prefix fd =
        some ((nwts fd).drop (c.subclass_name.length + 1 + strlen set_callback_prefix))) := by
  have hdef : c.subclass_name.length + 1 + strlen set_callback_prefix ≤ (nwts fd).length →
      c.persistent_callback_name nwts set_callback_prefix fd =
        some ((nwts fd).drop
          (c.subclass_name.length + 1 + strlen set_callback_prefix)) := by
    intro h
    rw [persistent_callback_name_eq, method_name_eq,
      substr_of_le _ _ (by omega), Option.some_bind,
      substr_of_le _ _ (by rw [List.length_drop]; omega), List.drop_drop]
  refine ⟨⟨?_, fun h => ?_⟩, hdef⟩
  · intro h
    rw [Option.isSome_iff_exists] at h
    obtain ⟨r, hr⟩ := h
    rw [persistent_callback_name_eq, method_name_eq] at hr
    cases h1 : substr (nwts fd) (c.subclass_name.length + 1) with
    | none =>
      rw [h1] at hr
      cases hr
    | some m =>
      rw [h1, Option.some_bind] at hr
      obtain ⟨ha, hb⟩ := (substr_eq_some_iff _ _ _).mp h1
      obtain ⟨hc, -⟩ := (substr_eq_some_iff _ _ _).mp hr
      rw [hb, List.length_drop] at hc
      omega
  · rw [hdef h]
    rfl

/-- An instance of C10: for the class "Foo", which has no persistent callbacks,
the prefix "set_" and the declaration "foo_get_ctx", whose method name does
not begin with the prefix, `persistent_callback_name` returns "ctx". -/
theorem persistent_callback_name_defined_iff_witness :
    (plain_class "Foo".toList [] "Foo".toList).method_name
      (fun _ => "foo_get_ctx".toList) ⟨0⟩ = some "get_ctx".toList ∧
    (⟨0⟩ : FunctionDecl) ∉
      (plain_class "Foo".toList [] "Foo".toList).persistent_callbacks ∧
    (plain_class "Foo".toList [] "Foo".toList).persistent_callback_name
      (fun _ => "foo_get_ctx".toList) "set_".toList ⟨0⟩ =
      some ("foo_get_ctx".toList.drop
        ((plain_class "Foo".toList [] "Foo".toList).subclass_name.length + 1 +
          strlen "set_".toList)) :=
  ⟨by decide, by decide,
    (persistent_callback_name_defined_iff (fun _ => "foo_get_ctx".toList)
      "set_".toList (plain_class "Foo".toList [] "Foo".toList) ⟨0⟩).2 (by decide)⟩

/-! ## `isl_class::has_persistent_callbacks` -/

/-- C8: `has_persistent_callbacks()` returns true exactly when
`persistent_callbacks` contains a declaration; it is false exactly for the
empty set, and true once any declaration has been inserted. -/
theorem has_persistent_callbacks_iff (c : isl_class) :
    (c.has_persistent_callbacks = true ↔ ∃ fd, fd ∈ c.persistent_callbacks) ∧
    (c.has_persistent_callbacks = false ↔ c.persistent_callbacks = ∅) ∧
    (∀ fd : FunctionDecl,
      isl_class.has_persistent_callbacks
        { c with persistent_callbacks := insert fd c.persistent_callbacks } = true) := by
  unfold isl_class.has_persistent_callbacks
  refine ⟨?_, ?_, ?_⟩
  · rw [bne_iff_ne, Finset.card_ne_zero]
    rfl
  · rw [bne_eq_false_iff_eq, Finset.card_eq_zero]
  · intro fd
    rw [bne_iff_ne]
    exact Finset.card_ne_zero.mpr (Finset.insert_nonempty fd c.persistent_callbacks)

/-! ## The registry -/

theorem map_find_assign {κ υ : Type} [DecidableEq κ] (m : List (κ × υ)) (k k' : κ)
    (v : υ) :
    map_find (map_assign m k v) k' = if k = k' then some v else map_find m k' := by
  induction m with
  | nil =>
    simp only [map_assign, map_find]
  | cons e m ih =>
    obtain ⟨k0, v0⟩ := e
    simp only [map_assign]
    by_cases h0 : k0 = k
    · subst h0
      simp only [if_true, map_find]
      by_cases h1 : k0 = k'
      · simp only [h1, if_true]
      · simp only [h1, if_false]
    · simp only [h0, if_false, map_find, ih]
      by_cases h1 : k0 = k'
      · subst h1
        simp only [if_true, h0, if_false, Ne.symm h0]
      · simp only [h1, if_false]

theorem map_find_assign_self {κ υ : Type} [DecidableEq κ] (m : List (κ × υ)) (k : κ)
    (v : υ) : map_find (map_assign m k v) k = some v := by
  rw [map_find_assign, if_pos rfl]

/-- C7: the class that `add_class(decl)` registers, found under the name of
`decl`, has `subclass_name` equal to `name`, is not a type subclass, has empty
`constructors`, `persistent_callbacks`, `methods` and `type_subclasses`, and
has none of `fn_type`, `fn_to_str`, `fn_copy`, `fn_dump`, `fn_free` set. -/
theorem add_class_registers (decl_name : RecordDecl → CxxString) (g : generator)
    (decl : RecordDecl) :
    ∃ c, map_find (g.add_class decl_name decl).classes (decl_name decl) = some c ∧
      c.name = decl_name decl ∧ c.subclass_name = c.name ∧
      c.is_type_subclass = false ∧
      c.constructors = ∅ ∧ c.persistent_callbacks = ∅ ∧ c.methods = [] ∧
      c.type_subclasses = [] ∧
      c.fn_type = none ∧ c.fn_to_str = none ∧ c.fn_copy = none ∧
      c.fn_dump = none ∧ c.fn_free = none := by
  refine ⟨_, map_find_assign_self _ _ _, rfl, rfl, ?_, rfl, rfl, rfl, rfl, rfl, rfl,
    rfl, rfl, rfl⟩
  exact (is_type_subclass_iff_aux _).mpr rfl

/-! ## `generator::add_type_subclasses` -/

theorem tagged_subclass_some (tag_of : isl_class → Option Int) (g : generator)
    (v : Int) (s : isl_class) (h : generator.tagged_subclass tag_of g v = some s) :
    (∃ k, (k, s) ∈ g.classes) ∧ s.is_type_subclass = true ∧ tag_of s = some v := by
  unfold generator.tagged_subclass at h
  rw [Option.map_eq_some'] at h
  obtain ⟨e, he, hs⟩ := h
  have hp := List.find?_some he
  have hm := List.mem_of_find?_eq_some he
  simp only [Bool.and_eq_true, decide_eq_true_eq] at hp
  subst hs
  exact ⟨⟨e.1, hm⟩, hp.1, hp.2⟩

theorem tagged_subclass_exists_iff (tag_of : isl_class → Option Int) (g : generator)
    (v : Int) :
    (∃ s, generator.tagged_subclass tag_of g v = some s) ↔
      ∃ e ∈ g.classes, e.2.is_type_subclass = true ∧ tag_of e.2 = some v := by
  constructor
  · rintro ⟨s, hs⟩
    obtain ⟨⟨k, hk⟩, h1, h2⟩ := tagged_subclass_some tag_of g v s hs
    exact ⟨(k, s), hk, h1, h2⟩
  · rintro ⟨e, he, h1, h2⟩
    unfold generator.tagged_subclass
    cases hf : g.classes.find? (fun e =>
        e.2.is_type_subclass && decide (tag_of e.2 = some v)) with
    | some e' => exact ⟨e'.2, rfl⟩
    | none =>
      rw [List.find?_eq_none] at hf
      have := hf e he
      simp only [h1, h2, decide_True, Bool.and_self, not_true_eq_false] at this

theorem tagged_subclass_none_iff (tag_of : isl_class → Option Int) (g : generator)
    (v : Int) :
    generator.tagged_subclass tag_of g v = none ↔
      ¬ ∃ e ∈ g.classes, e.2.is_type_subclass = true ∧ tag_of e.2 = some v := by
  rw [← tagged_subclass_exists_iff]
  cases generator.tagged_subclass tag_of g v with
  | none => simp
  | some s => simp

theorem populate_find_not_mem (tag_of : isl_class → Option Int) (g : generator)
    (vs : List Int) (m : List (Int × CxxString)) (k : Int) (hk : k ∉ vs) :
    map_find (generator.populate tag_of g m vs) k = map_find m k := by
  induction vs generalizing m with
  | nil => rfl
  | cons v vs ih =>
    have hne : v ≠ k := fun h => hk (h ▸ List.mem_cons_self _ _)
    have hin : k ∉ vs := fun h => hk (List.mem_cons_of_mem _ h)
    unfold generator.populate
    cases generator.tagged_subclass tag_of g v with
    | some s' =>
      simp only
      rw [ih _ hin, map_find_assign, if_neg hne]
    | none => exact ih _ hin

theorem populate_find (tag_of : isl_class → Option Int) (g : generator)
    (vs : List Int) (m : List (Int × CxxString)) (k : Int) (s : isl_class)
    (hs : generator.tagged_subclass tag_of g k = some s) (hk : k ∈ vs) :
    map_find (generator.populate tag_of g m vs) k = some s.subclass_name := by
  induction vs generalizing m with
  | nil => cases hk
  | cons v vs ih =>
    by_cases hin : k ∈ vs
    · unfold generator.populate
      cases generator.tagged_subclass tag_of g v with
      | some s' => exact ih _ hin
      | none => exact ih _ hin
    · have hkv : k = v := by
        rcases List.mem_cons.mp hk with h | h
        · exact h
        · exact absurd h hin
      subst hkv
      unfold generator.populate
      rw [hs]
      simp only
      rw [populate_find_not_mem tag_of g vs _ k hin]
      exact map_find_assign_self _ _ _

theorem mem_unmapped_values (tag_of : isl_class → Option Int) (g : generator)
    (values : List Int) (v : Int) :
    v ∈ generator.unmapped_values tag_of g values ↔
      v ∈ values ∧
        ¬ ∃ e ∈ g.classes, e.2.is_type_subclass = true ∧ tag_of e.2 = some v := by
  unfold generator.unmapped_values
  rw [List.mem_filter, Option.isNone_iff_eq_none, tagged_subclass_none_iff]

theorem unmapped_values_eq_nil_iff (tag_of : isl_class → Option Int) (g : generator)
    (values : List Int) :
    generator.unmapped_values tag_of g values = [] ↔
      ∀ v ∈ values, ∃ e ∈ g.classes, e.2.is_type_subclass = true ∧ tag_of e.2 = some v := by
  rw [List.eq_nil_iff_forall_not_mem]
  constructor
  · intro h v hv
    by_contra hne
    exact h v ((mem_unmapped_values tag_of g values v).mpr ⟨hv, hne⟩)
  · intro h v hv
    obtain ⟨h1, h2⟩ := (mem_unmapped_values tag_of g values v).mp hv
    exact h2 (h v h1)

theorem add_type_subclasses_of_mapped
    (method2class : generator → FunctionDecl → Option CxxString)
    (enum_values : FunctionDecl → List Int) (tag_of : isl_class → Option Int)
    (g : generator) (fn : FunctionDecl) (key : CxxString) (c : isl_class)
    (hown : method2class g fn = some key) (hcls : map_find g.classes key = some c)
    (hu : generator.unmapped_values tag_of g (enum_values fn) = []) :
    generator.add_type_subclasses method2class enum_values tag_of g fn =
      .ok { g with classes := (map_assign g.classes key
        { c with type_subclasses :=
            (generator.populate tag_of g c.type_subclasses (enum_values fn)) }) } := by
  unfold generator.add_type_subclasses
  simp only [hown, hcls, hu, ne_eq, not_true_eq_false, if_false]

theorem add_type_subclasses_of_unmapped
    (method2class : generator → FunctionDecl → Option CxxString)
    (enum_values : FunctionDecl → List Int) (tag_of : isl_class → Option Int)
    (g : generator) (fn : FunctionDecl) (key : CxxString) (c : isl_class)
    (hown : method2class g fn = some key) (hcls : map_find g.classes key = some c)
    (hu : generator.unmapped_values tag_of g (enum_values fn) ≠ []) :
    generator.add_type_subclasses method2class enum_values tag_of g fn =
      .error (.unmapped_values
        (generator.unmapped_values tag_of g (enum_values fn))) := by
  unfold generator.add_type_subclasses
  simp only [hown, hcls, hu, ne_eq, not_false_eq_true, if_true]

/-- C6: for a discriminator whose owning class is registered,
`add_type_subclasses` succeeds exactly when every enumerator value of the
discriminator has a registered subclass tagged with that value; on success the
`type_subclasses` map of the owning class sends each enumerator value to the
`subclass_name` of a subclass tagged with it; on failure the error is a model
error whose values are exactly the enumerator values without such a subclass. -/
theorem add_type_subclasses_spec
    (method2class : generator → FunctionDecl → Option CxxString)
    (enum_values : FunctionDecl → List Int) (tag_of : isl_class → Option Int)
    (g : generator) (fn : FunctionDecl) (key : CxxString) (c : isl_class)
    (hown : method2class g fn = some key) (hcls : map_find g.classes key = some c) :
    ((∃ g', generator.add_type_subclasses method2class enum_values tag_of g fn = .ok g') ↔
      ∀ v ∈ enum_values fn,
        ∃ e ∈ g.classes, e.2.is_type_subclass = true ∧ tag_of e.2 = some v) ∧
    (∀ g', generator.add_type_subclasses method2class enum_values tag_of g fn = .ok g' →
      ∃ c', map_find g'.classes key = some c' ∧
        ∀ v ∈ enum_values fn,
          ∃ e ∈ g.classes, e.2.is_type_subclass = true ∧ tag_of e.2 = some v ∧
            map_find c'.type_subclasses v = some e.2.subclass_name) ∧
    (∀ err, generator.add_type_subclasses method2class enum_values tag_of g fn =
        .error err →
      ∃ vs, err = .unmapped_values vs ∧ vs ≠ [] ∧
        ∀ v, v ∈ vs ↔ (v ∈ enum_values fn ∧
          ¬ ∃ e ∈ g.classes, e.2.is_type_subclass = true ∧ tag_of e.2 = some v)) := by
  by_cases hu : generator.unmapped_values tag_of g (enum_values fn) = []
  · have hok := add_type_subclasses_of_mapped method2class enum_values tag_of g fn key c
      hown hcls hu
    have hall := (unmapped_values_eq_nil_iff tag_of g (enum_values fn)).mp hu
    refine ⟨⟨fun _ => hall, fun _ => ⟨_, hok⟩⟩, ?_, ?_⟩
    · intro g' hg'
      rw [hok] at hg'
      cases hg'
      refine ⟨_, map_find_assign_self g.classes key _, ?_⟩
      intro v hv
      obtain ⟨s, hs⟩ := (tagged_subclass_exists_iff tag_of g v).mpr (hall v hv)
      obtain ⟨⟨k, hk⟩, h1, h2⟩ := tagged_subclass_some tag_of g v s hs
      exact ⟨(k, s), hk, h1, h2, populate_find tag_of g _ _ v s hs hv⟩
    · intro err herr
      rw [hok] at herr
      cases herr
  · have herr := add_type_subclasses_of_unmapped method2class enum_values tag_of g fn
      key c hown hcls hu
    refine ⟨⟨?_, fun hall => ?_⟩, ?_, ?_⟩
    · rintro ⟨g', hg'⟩
      rw [herr] at hg'
      cases hg'
    · exact absurd ((unmapped_values_eq_nil_iff tag_of g (enum_values fn)).mpr hall) hu
    · intro g' hg'
      rw [herr] at hg'
      cases hg'
    · intro err he
      rw [herr] at he
      cases he
      exact ⟨_, rfl, hu, mem_unmapped_values tag_of g (enum_values fn)⟩

/-- Scenario C, an instance of C6: with the enumerator values 0 and 1, the
subclass "Bar" tagged 0 and the subclass "Baz" tagged 1, the `type_subclasses`
map of "Foo" becomes 0 to "Bar" and 1 to "Baz"; without "Baz" the call fails
with the model error that names the value 1. -/
theorem add_type_subclasses_spec_witness :
    type_subclasses_of
      (scenario_foo_bar_baz.bind (fun g =>
        generator.add_type_subclasses scenario_method2class scenario_enum_values
          scenario_tag_of g ⟨7⟩))
      "Foo".toList = .ok (some [(0, "Bar".toList), (1, "Baz".toList)]) ∧
    type_subclasses_of
      (scenario_foo_bar.bind (fun g =>
        generator.add_type_subclasses scenario_method2class scenario_enum_values
          scenario_tag_of g ⟨7⟩))
      "Foo".toList = .error (.unmapped_values [1]) ∧
    ((∃ g', generator.add_type_subclasses scenario_method2class scenario_enum_values
        scenario_tag_of (registry_of scenario_foo_bar_baz) ⟨7⟩ = .ok g') ↔
      ∀ v ∈ scenario_enum_values ⟨7⟩,
        ∃ e ∈ (registry_of scenario_foo_bar_baz).classes,
          e.2.is_type_subclass = true ∧ scenario_tag_of e.2 = some v) :=
  ⟨rfl, rfl,
    (add_type_subclasses_spec scenario_method2class scenario_enum_values
      scenario_tag_of (registry_of scenario_foo_bar_baz) ⟨7⟩ "Foo".toList _ rfl rfl).1⟩

end Isl
